import Mathlib

/-!
Verification development for the ezbak backup engine.

The definitions below shallowly embed the Python source under `src/ezbak/`:
`controllers/backup_manager.py` (orchestrator: create, prune, rename, restore,
storage-location caching, the include filter and archive enumeration) and
`controllers/aws.py` (object-store backend: key composition, rename with
copy/verify/delete, batch delete).  Modules of the repository that are not
present under `src/` (`constants.py`, `models/__init__.py` with `Backup` and
`StorageLocation`, `controllers/retention_policy_manager.py`) are modelled
from the specification and marked `Modelled from the spec:` in their doc
comments.  External collaborators (the `re` module, `boto3`, the filesystem,
`nclutils`) are represented by explicit oracles or response functions so the
control flow of the repository code stays the object of study.
-/

namespace EzBak

/-- Backend kinds of the `StorageType` enum used throughout
`backup_manager.py` (`LOCAL`, `AWS`, `ALL`); the enum itself lives in
`constants.py`. -/
inductive StorageType where
  | LOCAL
  | AWS
  | ALL
deriving DecidableEq, Repr

/-- Retention classes of the `BackupType` enum (`minutely` … `yearly`)
used by the time-based retention policy and the labeled rename flow. -/
inductive BackupType where
  | MINUTELY
  | HOURLY
  | DAILY
  | WEEKLY
  | MONTHLY
  | YEARLY
deriving DecidableEq, Repr

/-- The string value of a `BackupType` member, as interpolated into
filenames by `_rename_with_labels` (`backup_type.value`). -/
def BackupType.value : BackupType → String
  | .MINUTELY => "minutely"
  | .HOURLY => "hourly"
  | .DAILY => "daily"
  | .WEEKLY => "weekly"
  | .MONTHLY => "monthly"
  | .YEARLY => "yearly"

/-- The `RetentionPolicyType` enum matched on by `prune_backups`. -/
inductive RetentionPolicyType where
  | KEEP_ALL
  | COUNT_BASED
  | TIME_BASED
deriving DecidableEq, Repr

/-- Modelled from the spec: `Backup` lives in `models/__init__.py`, which is
not under `src/`.  Per spec §3 a Backup carries a backend kind and a
filename; its parsed timestamp is recomputed from the name (see
`zonedTs`). -/
structure Backup where
  storageType : StorageType
  name : String
deriving DecidableEq, Repr

/-- Modelled from the spec: `StorageLocation` lives in `models/__init__.py`,
not under `src/`.  Per spec §3 it is a (backend kind, root) pair with the
list of Backups belonging to it, sorted ascending by timestamp. -/
structure StorageLocation where
  storagePath : String
  storageType : StorageType
  backups : List Backup
deriving DecidableEq, Repr

/-! ## Filename grammar (spec §4.3)

`BACKUP_NAME_REGEX` and `BACKUP_EXTENSION` live in `constants.py`, which is
not under `src/`; the parser below is modelled from the spec's grammar
`<name> "-" <timestamp> [ "-" <bucket> ] [ "-" <uid> ] "." "tgz"` with the
group names (`name`, `timestamp`, `period`, `uuid`) that
`backup_manager.py` reads off the regex match. -/

/-- Modelled from the spec: the four fields the filename regex extracts. -/
structure BackupNameParts where
  base : String
  timestamp : String
  period : Option String
  uuid : Option String
deriving DecidableEq, Repr

/-- Split a character list on `-` separators. -/
def splitOnDash : List Char → List (List Char)
  | [] => [[]]
  | c :: cs =>
    let r := splitOnDash cs
    if c = '-' then [] :: r
    else
      match r with
      | t :: ts => (c :: t) :: ts
      | [] => [[c]]

/-- Does a token have the fixed-width `YYYYMMDDTHHMMSS` timestamp shape? -/
def isTimestampChars (cs : List Char) : Bool :=
  cs.length == 15 && (cs.take 8).all Char.isDigit &&
    ((cs.drop 8).take 1 == ['T']) && (cs.drop 9).all Char.isDigit

/-- First token index (at least 1, so a name precedes it) whose token has the
timestamp shape. -/
def findTsIndex : List (List Char) → Nat → Option Nat
  | [], _ => none
  | t :: ts, i =>
    if 1 ≤ i && isTimestampChars t then some i else findTsIndex ts (i + 1)

/-- Rejoin tokens with `-` separators. -/
def joinDashes : List (List Char) → List Char
  | [] => []
  | [t] => t
  | t :: ts => t ++ '-' :: joinDashes ts

/-- The legal retention-class tags of the `bucket` field (spec §4.3). -/
def bucketNames : List String :=
  ["minutely", "hourly", "daily", "weekly", "monthly", "yearly"]

/-- Modelled from the spec: the parser behind `BACKUP_NAME_REGEX`
(`constants.py`, not under `src/`).  It extracts the four grammar fields;
absence of `bucket` or `uid` is legal, and a filename that fails to match
parses to `none`. -/
def parseBackupName (s : String) : Option BackupNameParts :=
  let cs := s.data
  if cs.reverse.take 4 == ['z', 'g', 't', '.'] then
    let toks := splitOnDash (cs.take (cs.length - 4))
    match findTsIndex toks 0 with
    | none => none
    | some i =>
      let base : String := ⟨joinDashes (toks.take i)⟩
      let ts : String := ⟨(toks.drop i).headD []⟩
      match (toks.drop (i + 1)).map (fun t => (⟨t⟩ : String)) with
      | [] => some ⟨base, ts, none, none⟩
      | [x] =>
        if bucketNames.contains x then some ⟨base, ts, some x, none⟩
        else some ⟨base, ts, none, some x⟩
      | [x, y] =>
        if bucketNames.contains x then some ⟨base, ts, some x, some y⟩
        else none
      | _ => none
  else none

/-- Numeric value of a timestamp field: its digits read as a number.  Since
the field is fixed width, this ordering agrees with chronological order. -/
def tsNat (t : String) : Nat :=
  t.data.foldl (fun n c => if c.isDigit then n * 10 + (c.toNat - 48) else n) 0

/-- Modelled from the spec: `Backup.zoned_datetime` (`models/__init__.py`,
not under `src/`) materializes the timestamp parsed from the filename; it is
the sort key used by the listing and prune flows.  Unparseable names map to
0. -/
def zonedTs (b : Backup) : Nat :=
  match parseBackupName b.name with
  | some p => tsNat p.timestamp
  | none => 0

/-! ## The include filter (`_include_file_in_backup`, backup_manager.py 267-295) -/

/-- Modelled from the spec: `ALWAYS_EXCLUDE_FILENAMES` lives in
`constants.py`, not under `src/`; spec §4.1 names OS metadata files such as
these as the fixed always-exclude set. -/
def alwaysExcludeFilenames : List String :=
  [".DS_Store", "Thumbs.db", ".Spotlight-V100"]

/-- A candidate path as `_include_file_in_backup` observes it: whether the
path is a symlink (`path.is_symlink()`), its basename (`path.name`) and its
full path string (`str(path)`). -/
structure PathInfo where
  isSymlink : Bool
  basename : String
  full : String
deriving DecidableEq, Repr

/-- The regex-filter settings consumed by `_include_file_in_backup`
(`settings.include_regex` / `settings.exclude_regex`). -/
structure FilterSettings where
  includeRegex : Option String
  excludeRegex : Option String

/-- Python truthiness of an optional string setting: configured iff present
and non-empty. -/
def configured : Option String → Bool
  | none => false
  | some s => !s.isEmpty

/-- `re.search(pat, s) is not None` for an optional pattern, given a match
oracle `reSearch` standing for the external `re` module. -/
def searchOpt (reSearch : String → String → Bool) :
    Option String → String → Bool
  | none, _ => false
  | some p, s => reSearch p s

/-- Embedding of `BackupManager._include_file_in_backup`
(backup_manager.py 267-295): a symlink is rejected first with a warning,
then the always-exclude set, then the include regex, then the exclude
regex. -/
def includeFileInBackup (reSearch : String → String → Bool)
    (st : FilterSettings) (p : PathInfo) : Bool :=
  if p.isSymlink then false
  else if alwaysExcludeFilenames.contains p.basename then false
  else if configured st.includeRegex && !searchOpt reSearch st.includeRegex p.full then
    false
  else if configured st.excludeRegex && searchOpt reSearch st.excludeRegex p.full then
    false
  else true

/-! ## Archive enumeration (`_create_tmp_backup_file`, backup_manager.py 94-148)

Filesystem objects are modelled by the observations the Python code makes of
them: `Path.is_dir()` and `Path.is_file()` follow symlinks (they report the
kind of the resolved target) while `Path.is_symlink()` reports the path
itself. -/

/-- A file met while traversing a directory source (`source.rglob("*")`):
its full path, basename, relative path to the source root, whether the path
is a symlink, and whether it resolves to a regular file (`f.is_file()`). -/
structure SrcFile where
  fullPath : String
  basename : String
  relPath : String
  isSymlink : Bool
  isFile : Bool
deriving DecidableEq, Repr

/-- What a configured source path resolves to: a regular file, a directory
(with its recursive `rglob` listing), or anything else. -/
inductive SourceKind where
  | file
  | dir (files : List SrcFile)
  | other
deriving DecidableEq, Repr

/-- A configured source path as `_create_tmp_backup_file` observes it. -/
structure Source where
  fullPath : String
  basename : String
  isSymlink : Bool
  kind : SourceKind
deriving DecidableEq, Repr

/-- The `FileToAdd` record built by `_create_tmp_backup_file` (its
`full_path` and `relative_path` fields); `isSymlink` records whether the
added path is a symlink, for stating the symlink-exclusion property. -/
structure FileToAdd where
  fullPath : String
  relativePath : String
  isSymlink : Bool
deriving DecidableEq, Repr

/-- The entries contributed by one directory source (backup_manager.py
114-126): every `rglob` result with `f.is_file()` that passes
`_include_file_in_backup`, with relative path `rel` under
`strip_source_paths` and `basename(source)/rel` otherwise. -/
def filesFromDirSource (reSearch : String → String → Bool)
    (st : FilterSettings) (stripSourcePaths : Bool) (src : Source)
    (files : List SrcFile) : List FileToAdd :=
  (files.filter fun f =>
      f.isFile && includeFileInBackup reSearch st ⟨f.isSymlink, f.basename, f.fullPath⟩).map
    fun f =>
      ⟨f.fullPath,
        if stripSourcePaths then f.relPath else src.basename ++ "/" ++ f.relPath,
        f.isSymlink⟩

/-- Embedding of the source-enumeration loop of `_create_tmp_backup_file`
(backup_manager.py 112-133): a directory source is traversed (also when the
source path is a symlink to a directory, since `Path.is_dir()` follows
links), a non-symlink regular-file source is filtered and added, and every
other source — including a source path that is a symlink to a regular
file — raises `ValueError("Not a file or directory: ...")`. -/
def enumerateSources (reSearch : String → String → Bool)
    (st : FilterSettings) (stripSourcePaths : Bool) :
    List Source → Except String (List FileToAdd)
  | [] => .ok []
  | src :: rest =>
    match src.kind with
    | .dir files =>
      (enumerateSources reSearch st stripSourcePaths rest).map
        (filesFromDirSource reSearch st stripSourcePaths src files ++ ·)
    | .file =>
      if !src.isSymlink then
        let here :=
          if includeFileInBackup reSearch st ⟨src.isSymlink, src.basename, src.fullPath⟩ then
            [FileToAdd.mk src.fullPath src.basename src.isSymlink]
          else []
        (enumerateSources reSearch st stripSourcePaths rest).map (here ++ ·)
      else .error ("Not a file or directory: " ++ src.fullPath)
    | .other => .error ("Not a file or directory: " ++ src.fullPath)

/-- Outcome of the tar+gzip packaging step — the external `tarfile` module:
either the archive is written, or a `tarfile.TarError` is raised while
writing it. -/
inductive TarOutcome where
  | success
  | tarError (msg : String)
deriving DecidableEq, Repr

/-- Embedding of `_create_tmp_backup_file` (backup_manager.py 94-148): after
enumeration (whose `ValueError` propagates), the tar file is written; on
`tarfile.TarError` the error is logged and the function returns `None`
(`Option.none`) — it does not raise. -/
def createTmpBackupFile (reSearch : String → String → Bool)
    (st : FilterSettings) (stripSourcePaths : Bool) (srcs : List Source)
    (tmpName : String) (tarOut : TarOutcome) :
    Except String (Option String) :=
  match enumerateSources reSearch st stripSourcePaths srcs with
  | .error e => .error e
  | .ok _ =>
    match tarOut with
    | .success => .ok (some tmpName)
    | .tarError _ => .ok none

/-! ## create_backup (backup_manager.py 365-398) -/

/-- A publish attempt issued by `create_backup`: `copy_file` into a local
storage path, or `AWSService.upload_file`.  The artifact field carries the
`tmp_backup` value handed to the call (`none` when `_create_tmp_backup_file`
returned `None`). -/
inductive PutEvent where
  | putLocal (artifact : Option String) (storagePath : String) (backupName : String)
  | putAws (artifact : Option String) (backupName : String)
deriving DecidableEq, Repr

/-- The publish attempt `create_backup` makes for one storage location:
local and AWS locations each get one put; a location of type `ALL` matches
neither branch and gets none. -/
def putEventOf (tmp : Option String) (genName : StorageLocation → String)
    (loc : StorageLocation) : List PutEvent :=
  match loc.storageType with
  | .LOCAL => [.putLocal tmp loc.storagePath (genName loc)]
  | .AWS => [.putAws tmp (genName loc)]
  | .ALL => []

/-- The Backups `create_backup` appends for one storage location when its
put succeeds. -/
def createdOf (genName : StorageLocation → String) (loc : StorageLocation) :
    List Backup :=
  match loc.storageType with
  | .LOCAL => [⟨.LOCAL, genName loc⟩]
  | .AWS => [⟨.AWS, genName loc⟩]
  | .ALL => []

/-- Embedding of the per-location loop of `create_backup` (backup_manager.py
376-397).  `genName` stands for `storage_location.generate_new_backup_name()`
(in the missing `models/__init__.py`); `putOk` tells whether the put for a
location succeeds.  A failing put raises (`copy_file` / `upload_file`
re-raise `ClientError`), and the loop body has no try/except, so the
exception propagates: later locations are not attempted and no list is
returned. -/
def createBackupLoop (putOk : StorageLocation → Bool)
    (genName : StorageLocation → String) (tmp : Option String) :
    List StorageLocation → Except String (List Backup) × List PutEvent
  | [] => (.ok [], [])
  | loc :: rest =>
    match loc.storageType with
    | .ALL => createBackupLoop putOk genName tmp rest
    | _ =>
      if putOk loc then
        match createBackupLoop putOk genName tmp rest with
        | (.ok bs, evs) =>
          (.ok (createdOf genName loc ++ bs), putEventOf tmp genName loc ++ evs)
        | (.error e, evs) => (.error e, putEventOf tmp genName loc ++ evs)
      else (.error "put failed", putEventOf tmp genName loc)

/-- Embedding of `create_backup` (backup_manager.py 365-398): build the
staged archive, then publish it to every storage location.  The builder's
`ValueError` propagates; a `None` builder result is not checked — the
publish loop runs with `tmp_backup = None`. -/
def createBackupRun (reSearch : String → String → Bool)
    (st : FilterSettings) (stripSourcePaths : Bool) (srcs : List Source)
    (tmpName : String) (tarOut : TarOutcome)
    (putOk : StorageLocation → Bool) (genName : StorageLocation → String)
    (locs : List StorageLocation) :
    Except String (List Backup) × List PutEvent :=
  match createTmpBackupFile reSearch st stripSourcePaths srcs tmpName tarOut with
  | .error e => (.error e, [])
  | .ok tmp => createBackupLoop putOk genName tmp locs

/-! ## Retention policy and prune (backup_manager.py 426-465) -/

/-- Modelled from the spec: `RetentionPolicyManager`
(`controllers/retention_policy_manager.py`) is not under `src/`.  Per spec
§3/§4.4 it is a tagged value: `KeepAll`, `CountBased(n)` with its count, or
`TimeBased` with one optional count per bucket (0 when unset). -/
structure RetentionPolicyManager where
  policyType : RetentionPolicyType
  countBasedPolicy : Nat
  timeBasedPolicy : BackupType → Nat

/-- Modelled from the spec: `RetentionPolicyManager.get_retention`
(`retention_policy_manager.py`, not under `src/`): with no argument it
returns the count-based cap, with a bucket it returns that bucket's
configured count (0 if unset). -/
def getRetention (rp : RetentionPolicyManager) : Option BackupType → Nat
  | none => rp.countBasedPolicy
  | some bt => rp.timeBasedPolicy bt

/-- The victim selection `prune_backups` performs on one backup list
(backup_manager.py 444-445 and 450-451): the list is stored ascending by
timestamp; when it is longer than `maxKeep`, reverse it (descending) and
drop the first `maxKeep` — the remainder are victims. -/
def countBasedVictims (bs : List Backup) (maxKeep : Nat) : List Backup :=
  if maxKeep < bs.length then bs.reverse.drop maxKeep else []

/-- The victim-selection loop of `prune_backups` (backup_manager.py
436-454), accumulating into `deleted_backups`.  `grouping` stands for
`StorageLocation.backups_by_time_unit` (in the missing
`models/__init__.py`), used only by the time-based branch.  The `KEEP_ALL`
branch returns the accumulator immediately (the Python `return` inside the
loop). -/
def pruneSelect (rp : RetentionPolicyManager)
    (grouping : List Backup → List (BackupType × List Backup)) :
    List StorageLocation → List Backup → List Backup
  | [], acc => acc
  | loc :: rest, acc =>
    match rp.policyType with
    | .KEEP_ALL => acc
    | .COUNT_BASED =>
      pruneSelect rp grouping rest
        (acc ++ countBasedVictims loc.backups (getRetention rp none))
    | .TIME_BASED =>
      pruneSelect rp grouping rest
        (acc ++ (grouping loc.backups).flatMap
          fun p => countBasedVictims p.2 (getRetention rp (some p.1)))

/-! ## Orchestrator state: the storage-location cache (backup_manager.py 69-92)

The instance modelled here is configured with `storage_type = aws`, so the
ground truth is the set of object keys in the bucket.  `_storage_locations`
and `rebuild_storage_locations` are the cache fields set up in `__init__`
(backup_manager.py 48-49). -/

structure ManagerState where
  awsObjects : List String
  cached : List StorageLocation
  rebuild : Bool
deriving Repr

/-- Insert a backup into a list sorted ascending by `zonedTs`, keeping the
insertion stable like Python's `sorted`. -/
def insertByTs (b : Backup) : List Backup → List Backup
  | [] => [b]
  | x :: xs => if zonedTs b < zonedTs x then b :: x :: xs else x :: insertByTs b xs

/-- `sorted(..., key=lambda x: x.zoned_datetime)`: stable ascending sort. -/
def sortByTs (bs : List Backup) : List Backup :=
  bs.foldl (fun acc b => insertByTs b acc) []

/-- Embedding of `_find_existing_backups_aws` (backup_manager.py 242-265):
one StorageLocation holding a Backup per listed object key, sorted ascending
by parsed timestamp. -/
def findExistingBackupsAws (bucketPath : String) (objects : List String) :
    List StorageLocation :=
  [⟨bucketPath, .AWS, sortByTs (objects.map fun k => ⟨.AWS, k⟩)⟩]

/-- Embedding of the `storage_locations` property (backup_manager.py
69-92) for an AWS-configured instance: return the cached list unless the
rebuild flag is set or the cache is empty; on a rebuild the result is
cached, but the rebuild flag is left untouched. -/
def storageLocations (bucketPath : String) (s : ManagerState) :
    List StorageLocation × ManagerState :=
  if !s.rebuild && !s.cached.isEmpty then (s.cached, s)
  else
    let locs := findExistingBackupsAws bucketPath s.awsObjects
    (locs, { s with cached := locs })

/-- Embedding of `prune_backups` (backup_manager.py 426-465) for an
AWS-configured instance: read the (possibly cached) storage locations,
select victims per the retention policy, then delete the AWS victims from
the bucket with one batch call (S3 deletion of an absent key succeeds).
Neither `_storage_locations` nor `rebuild_storage_locations` is touched. -/
def pruneBackups (bucketPath : String) (rp : RetentionPolicyManager)
    (grouping : List Backup → List (BackupType × List Backup))
    (s : ManagerState) : List Backup × ManagerState :=
  let r := storageLocations bucketPath s
  let victims := pruneSelect rp grouping r.1 []
  let awsNames := (victims.filter fun b => b.storageType == .AWS).map (·.name)
  (victims, { r.2 with awsObjects := r.2.awsObjects.filter (!awsNames.contains ·) })

/-! ## rename_backups (backup_manager.py 327-363, 467-495) -/

/-- The `FileForRename` dataclass (backup_manager.py 26-32). -/
structure FileForRename where
  backup : Backup
  newName : String
  doRename : Bool
deriving DecidableEq, Repr

/-- The pending-rename records `_rename_with_labels` (backup_manager.py
327-363) builds for one classified group of `backups_by_time_unit`: a backup
whose parsed `period` already equals the class is untouched; otherwise the
regex substitution rewrites the whole name to
`f"{name}-{timestamp}-{backup_type.value}.tgz"` (dropping any uid).  The
grouping only ever holds backups with parseable names (classification needs
the parsed timestamp), so an unparseable name is mapped to a no-op. -/
def renameWithLabelsGroup (bt : BackupType) (bs : List Backup) :
    List FileForRename :=
  bs.map fun b =>
    match parseBackupName b.name with
    | some parts =>
      if parts.period = some bt.value then ⟨b, b.name, false⟩
      else
        ⟨b, parts.base ++ "-" ++ parts.timestamp ++ "-" ++ bt.value ++ ".tgz", true⟩
    | none => ⟨b, b.name, false⟩

/-- `_rename_with_labels` over the whole grouping of one storage
location. -/
def renameWithLabels (grouping : List (BackupType × List Backup)) :
    List FileForRename :=
  grouping.flatMap fun p => renameWithLabelsGroup p.1 p.2

/-- Python `new_name.rstrip(".tgz")`: `str.rstrip` takes a character set, so
this removes ALL trailing characters drawn from `{'.','t','g','z'}`. -/
def rstripTgzChars (s : String) : String :=
  ⟨(s.data.reverse.dropWhile fun c =>
      c = '.' || c = 't' || c = 'g' || c = 'z').reverse⟩

/-- The collision name built at backup_manager.py 480:
`f"{file.new_name.rstrip('.tgz')}-{new_uid(bits=24)}.tgz"`. -/
def collisionName (n : String) (uid : String) : String :=
  rstripTgzChars n ++ "-" ++ uid ++ ".tgz"

/-- Embedding of the collision-resolution pass of `rename_backups`
(backup_manager.py 474-489).  The loop walks `files_for_rename` in order;
for a record with `do_rename` it counts, over the CURRENT list (earlier
records already mutated in place), the entries sharing its target name; when
that count exceeds 1 the record's target gets a fresh uid suffix.  `uidf k`
stands for the `new_uid(bits=24)` value drawn at step `k` (the uid is random
and fresh per call; indexing by position determinizes the draw). -/
def resolveRenames (uidf : Nat → String) :
    Nat → List FileForRename → List FileForRename → List FileForRename
  | _, done, [] => done
  | k, done, f :: rest =>
    if f.doRename &&
        1 < ((done ++ f :: rest).map (·.newName)).count f.newName then
      resolveRenames uidf (k + 1)
        (done ++ [{ f with newName := collisionName f.newName (uidf k) }]) rest
    else resolveRenames uidf (k + 1) (done ++ [f]) rest

/-- `rename_backups` in labeled mode, up to the point where each rename is
issued: the final target names after collision resolution. -/
def renameBackupsLabeled (uidf : Nat → String)
    (grouping : List (BackupType × List Backup)) : List FileForRename :=
  resolveRenames uidf 0 [] (renameWithLabels grouping)

/-! ## Object-store backend (`aws.py`) -/

/-- One wire call issued by `AWSService`. -/
inductive S3Event where
  | copyObject (src dst : String)
  | headObject (key : String)
  | deleteObject (key : String)
  | batchDelete (keys : List String)
deriving DecidableEq, Repr

/-- Response of `head_object` as `file_exists` distinguishes them: found,
404 (absent), or any other `ClientError`. -/
inductive HeadResult where
  | found
  | notFound404
  | otherError (msg : String)
deriving DecidableEq, Repr

/-- Success or `ClientError` of a plain S3 call. -/
inductive CallResult where
  | ok
  | clientError (msg : String)
deriving DecidableEq, Repr

/-- Response of the batch `delete_objects` call: a `ClientError`, or a
response body with its `Deleted` and `Errors` lists. -/
inductive BatchResult where
  | clientError (msg : String)
  | response (deleted : List String) (errors : List String)
deriving DecidableEq, Repr

/-- The S3 wire responses for one run, standing for the external boto3
client. -/
structure S3Responses where
  copyRes : String → String → CallResult
  headRes : String → HeadResult
  deleteRes : String → CallResult
  batchRes : List String → BatchResult

/-- Embedding of `AWSService._build_full_key` (aws.py 50-67): prepend the
normalized bucket path unless it is empty or the key already carries it. -/
def buildFullKey (bucketPath : String) (key : String) : String :=
  if bucketPath.isEmpty then key
  else
    let normalized := ⟨(bucketPath.data.reverse.dropWhile (· = '/')).reverse⟩ ++ "/"
    if normalized.isPrefixOf key then key else normalized ++ key

/-- Embedding of `AWSService.file_exists` (aws.py 69-98): build the full
key, `head_object` it; found yields `true`, a 404 yields `false`, any other
`ClientError` is re-raised. -/
def fileExists (r : S3Responses) (bucketPath : String) (key : String) :
    Except String Bool × List S3Event :=
  let fullKey := buildFullKey bucketPath key
  match r.headRes fullKey with
  | .found => (.ok true, [.headObject fullKey])
  | .notFound404 => (.ok false, [.headObject fullKey])
  | .otherError e => (.error e, [.headObject fullKey])

/-- Embedding of `AWSService.rename_file` (aws.py 233-277): copy the object;
re-raise a copy failure; read the new key back via `file_exists` (note the
argument is the already-prefixed key, which `_build_full_key` tolerates);
when the read-back does not find it, raise
`ClientError("FailedCopyVerification")` — before any delete; only then
delete the source key. -/
def renameFile (r : S3Responses) (bucketPath : String)
    (currentName newName : String) : Except String Unit × List S3Event :=
  let fullCurrentName := buildFullKey bucketPath currentName
  let fullNewName := buildFullKey bucketPath newName
  match r.copyRes fullCurrentName fullNewName with
  | .clientError e => (.error e, [.copyObject fullCurrentName fullNewName])
  | .ok =>
    let ex := fileExists r bucketPath fullNewName
    let evs := .copyObject fullCurrentName fullNewName :: ex.2
    match ex.1 with
    | .error e => (.error e, evs)
    | .ok false => (.error "FailedCopyVerification", evs)
    | .ok true =>
      match r.deleteRes fullCurrentName with
      | .clientError e => (.error e, evs ++ [.deleteObject fullCurrentName])
      | .ok => (.ok (), evs ++ [.deleteObject fullCurrentName])

/-- Embedding of `AWSService.delete_objects` (aws.py 125-184): an empty key
list is a logged no-op returning `True`; more than 1000 keys raises
`ValueError` — both before any wire call; otherwise one batch call is
issued, returning `False` when the response reports per-key errors. -/
def deleteObjects (r : S3Responses) (bucketPath : String)
    (keys : List String) : Except String Bool × List S3Event :=
  if keys.isEmpty then (.ok true, [])
  else if 1000 < keys.length then
    (.error "S3: Cannot delete more than 1000 objects at once", [])
  else
    let objs := keys.map (buildFullKey bucketPath)
    match r.batchRes objs with
    | .clientError e => (.error e, [.batchDelete objs])
    | .response _ errors =>
      if errors.isEmpty then (.ok true, [.batchDelete objs])
      else (.ok false, [.batchDelete objs])

/-! ## restore_backup (backup_manager.py 497-534) -/

/-- The externally visible steps of `restore_backup`, in order. -/
inductive RestoreEvent where
  | cleanDest
  | queryLatest
  | doRestore (backupName : String)
deriving DecidableEq, Repr

/-- Embedding of `get_latest_backup` (backup_manager.py 400-411): `None` on
an empty inventory, else Python `max` by timestamp (first maximum wins). -/
def getLatestBackup : List Backup → Option Backup
  | [] => none
  | b :: rest =>
    some (rest.foldl (fun acc x => if zonedTs acc < zonedTs x then x else acc) b)

/-- How `restore_backup` observes its destination argument. -/
structure RestoreDest where
  exists' : Bool
  isDir : Bool
deriving DecidableEq, Repr

/-- Embedding of `restore_backup` (backup_manager.py 497-534): validate the
destination; when cleaning is requested, `clean_directory(dest)` runs — and
only AFTER that is `get_latest_backup` consulted; with no backup it returns
`False`.  `restoreOk` stands for the outcome of `_do_restore`. -/
def restoreBackup (dest : RestoreDest) (cleanBeforeRestore : Bool)
    (settingsClean : Bool) (allBackups : List Backup) (restoreOk : Bool) :
    Bool × List RestoreEvent :=
  if !dest.exists' then (false, [])
  else if !dest.isDir then (false, [])
  else
    let cleanEvs := if cleanBeforeRestore || settingsClean then [RestoreEvent.cleanDest] else []
    match getLatestBackup allBackups with
    | none => (false, cleanEvs ++ [.queryLatest])
    | some b => (restoreOk, cleanEvs ++ [.queryLatest, .doRestore b.name])

/-- The spec's literal CountBased scenario: pre-existing backups with
timestamps 01..05 (seconds field), stored ascending. -/
def exampleBackups01to05 : List Backup :=
  [⟨.AWS, "foo-20240101T000001.tgz"⟩, ⟨.AWS, "foo-20240101T000002.tgz"⟩,
   ⟨.AWS, "foo-20240101T000003.tgz"⟩, ⟨.AWS, "foo-20240101T000004.tgz"⟩,
   ⟨.AWS, "foo-20240101T000005.tgz"⟩]

/-! # Theorems -/

/-- A path admitted by `_include_file_in_backup` is never a symlink: the
symlink check is the first rejection. -/
theorem includeFileInBackup_not_symlink (reSearch : String → String → Bool)
    (st : FilterSettings) (p : PathInfo)
    (h : includeFileInBackup reSearch st p = true) : p.isSymlink = false := by
  by_cases hs : p.isSymlink = true
  · simp [includeFileInBackup, hs] at h
  · simpa using hs

/-- C5 (amended): `_include_file_in_backup` admits a candidate path iff it is
not a symlink, its basename is outside the fixed always-exclude set, the
include regex (when configured) matches the full path string, and the
exclude regex (when configured) does not; include is evaluated before
exclude. -/
theorem c5_filter_order_amended (reSearch : String → String → Bool)
    (st : FilterSettings) (p : PathInfo) :
    includeFileInBackup reSearch st p = true ↔
      p.isSymlink = false ∧
      alwaysExcludeFilenames.contains p.basename = false ∧
      (configured st.includeRegex = false ∨
        searchOpt reSearch st.includeRegex p.full = true) ∧
      (configured st.excludeRegex = false ∨
        searchOpt reSearch st.excludeRegex p.full = false) := by
  unfold includeFileInBackup
  split_ifs with h1 h2 h3 h4 <;>
    cases hc : configured st.includeRegex <;>
      cases hd : configured st.excludeRegex <;> simp_all

/-- C5 (counterexample): the claim's three-condition characterisation fails
on a candidate path that is a symlink — with no regexes configured and an
ordinary basename all three conditions hold, yet the file is rejected. -/
theorem c5_counterexample :
    ¬ (includeFileInBackup (fun _ _ => false) ⟨none, none⟩
          ⟨true, "a.txt", "/src/a.txt"⟩ = true ↔
        (alwaysExcludeFilenames.contains "a.txt" = false ∧
         (configured (none : Option String) = false ∨
           searchOpt (fun _ _ => false) none "/src/a.txt" = true) ∧
         (configured (none : Option String) = false ∨
           searchOpt (fun _ _ => false) none "/src/a.txt" = false))) := by
  decide

/-- Entries produced by a successful enumeration are never symlinks. -/
theorem enumerateSources_ok_no_symlink (reSearch : String → String → Bool)
    (st : FilterSettings) (strip : Bool) :
    ∀ (srcs : List Source) (out : List FileToAdd),
      enumerateSources reSearch st strip srcs = .ok out →
      ∀ e ∈ out, e.isSymlink = false := by
  intro srcs
  induction srcs with
  | nil =>
    intro out h e he
    simp only [enumerateSources] at h
    cases h
    simp at he
  | cons src rest ih =>
    intro out h e he
    match hk : src.kind with
    | .dir files =>
      rw [enumerateSources, hk] at h
      cases hr : enumerateSources reSearch st strip rest with
      | error msg => rw [hr] at h; simp [Except.map] at h
      | ok out' =>
        rw [hr] at h
        simp only [Except.map] at h
        cases h
        rcases List.mem_append.mp he with hm | hm
        · rcases List.mem_map.mp hm with ⟨f, hf, rfl⟩
          have hfl := List.of_mem_filter hf
          have : includeFileInBackup reSearch st ⟨f.isSymlink, f.basename, f.fullPath⟩ = true := by
            simpa using (Bool.and_elim_right (by simpa using hfl))
          exact includeFileInBackup_not_symlink _ _ _ this
        · exact ih out' hr e hm
    | .file =>
      rw [enumerateSources, hk] at h
      by_cases hl : src.isSymlink = true
      · simp [hl] at h
      · have hl' : src.isSymlink = false := by simpa using hl
        rw [hl'] at h
        simp only [Bool.not_false, if_true] at h
        cases hr : enumerateSources reSearch st strip rest with
        | error msg => rw [hr] at h; simp [Except.map] at h
        | ok out' =>
          rw [hr] at h
          simp only [Except.map] at h
          cases h
          rcases List.mem_append.mp he with hm | hm
          · by_cases hi : includeFileInBackup reSearch st
                ⟨false, src.basename, src.fullPath⟩ = true
            · rw [if_pos hi] at hm
              simp at hm
              subst hm
              rfl
            · rw [if_neg hi] at hm
              simp at hm
          · exact ih out' hr e hm
    | .other =>
      rw [enumerateSources, hk] at h
      cases h

/-- A source list containing a path that is a symlink to a regular file
always makes the enumeration raise. -/
theorem enumerateSources_symlink_source_error (reSearch : String → String → Bool)
    (st : FilterSettings) (strip : Bool) :
    ∀ (srcs : List Source) (s : Source), s ∈ srcs → s.kind = .file →
      s.isSymlink = true →
      ∃ msg, enumerateSources reSearch st strip srcs = .error msg := by
  intro srcs
  induction srcs with
  | nil => intro s hs; simp at hs
  | cons src rest ih =>
    intro s hs hkind hlink
    rcases List.mem_cons.mp hs with rfl | hmem
    · rw [enumerateSources, hkind, hlink]
      exact ⟨_, rfl⟩
    · rcases ih s hmem hkind hlink with ⟨msg, hmsg⟩
      match hk : src.kind with
      | .dir files =>
        rw [enumerateSources, hk, hmsg]
        exact ⟨msg, rfl⟩
      | .file =>
        rw [enumerateSources, hk]
        by_cases hl : src.isSymlink = true
        · rw [hl]; exact ⟨_, rfl⟩
        · have hl' : src.isSymlink = false := by simpa using hl
          rw [hl', hmsg]
          exact ⟨msg, rfl⟩
      | .other =>
        rw [enumerateSources, hk]
        exact ⟨_, rfl⟩

/-- C4 (amended): symlinks met while traversing a source directory are
skipped, and a non-symlink file source passes through the same filter, so no
entry of a successfully built archive is a symlink; but a configured source
path that is itself a symlink to a regular file is not skipped — it fails
the whole run with `ValueError("Not a file or directory: ...")`. -/
theorem c4_symlink_amended (reSearch : String → String → Bool)
    (st : FilterSettings) (strip : Bool) (srcs : List Source) :
    (∀ out, enumerateSources reSearch st strip srcs = .ok out →
      ∀ e ∈ out, e.isSymlink = false) ∧
    (∀ s ∈ srcs, s.kind = .file → s.isSymlink = true →
      ∃ msg, enumerateSources reSearch st strip srcs = .error msg) := by
  exact ⟨fun out h => enumerateSources_ok_no_symlink reSearch st strip srcs out h,
    fun s hs h1 h2 => enumerateSources_symlink_source_error reSearch st strip srcs s hs h1 h2⟩

/-- Witness for C4's amended theorem at a concrete input: one configured
source that is a symlink to a regular file makes the enumeration fail. -/
theorem c4_symlink_amended_witness :
    ∃ msg, enumerateSources (fun _ _ => false) ⟨none, none⟩ false
        [⟨"/src/link.txt", "link.txt", true, .file⟩] = .error msg :=
  (c4_symlink_amended (fun _ _ => false) ⟨none, none⟩ false
      [⟨"/src/link.txt", "link.txt", true, .file⟩]).2
    ⟨"/src/link.txt", "link.txt", true, .file⟩ (by simp) rfl rfl

/-- C4 (counterexample): the claim says a symlink source is skipped with a
warning and does not fail the run; on the code, a source path that is a
symlink to a regular file matches neither the directory branch nor the
`is_file() and not is_symlink()` branch and raises `ValueError`. -/
theorem c4_counterexample :
    enumerateSources (fun _ _ => false) ⟨none, none⟩ false
        [⟨"/src/link.txt", "link.txt", true, .file⟩] =
      .error "Not a file or directory: /src/link.txt" := by
  rfl

/-- C1: prune is not idempotent on the code.  `prune_backups` never sets
`rebuild_storage_locations`, so the second run reads the stale cached
inventory and selects the same non-empty victim set again: with two backups
(timestamps …01 and …02) and `max_backups = 1`, both runs return the …01
victim, where the claim requires the second victim set to be empty. -/
theorem c1_second_prune_victims_not_empty :
    (pruneBackups "" ⟨.COUNT_BASED, 1, fun _ => 0⟩ (fun _ => [])
        ⟨["foo-20240101T000001.tgz", "foo-20240101T000002.tgz"], [], false⟩).1 =
      [⟨.AWS, "foo-20240101T000001.tgz"⟩] ∧
    (pruneBackups "" ⟨.COUNT_BASED, 1, fun _ => 0⟩ (fun _ => [])
        ((pruneBackups "" ⟨.COUNT_BASED, 1, fun _ => 0⟩ (fun _ => [])
          ⟨["foo-20240101T000001.tgz", "foo-20240101T000002.tgz"], [], false⟩).2)).1 =
      [⟨.AWS, "foo-20240101T000001.tgz"⟩] :=
  ⟨by decide, by decide⟩

/-- C3: a tar error during packaging does not abort the create operation
with an `ArchiveError`.  `_create_tmp_backup_file` catches `tarfile.TarError`
and returns `None` (despite its `-> Path` annotation), and `create_backup`
uses the value unchecked: the publish loop still runs, attempting a put with
no artifact. -/
theorem c3_tar_error_does_not_abort_create :
    createTmpBackupFile (fun _ _ => false) ⟨none, none⟩ false
        [⟨"/src/a.txt", "a.txt", false, .file⟩] "tmp-archive"
        (.tarError "gzip failure") = .ok none ∧
    (createBackupRun (fun _ _ => false) ⟨none, none⟩ false
        [⟨"/src/a.txt", "a.txt", false, .file⟩] "tmp-archive"
        (.tarError "gzip failure") (fun _ => true)
        (fun _ => "ezbak-20240102T030405.tgz")
        [⟨"/backups", .LOCAL, []⟩]).2 =
      [.putLocal none "/backups" "ezbak-20240102T030405.tgz"] :=
  ⟨rfl, rfl⟩

/-- C2 (counterexample): with two storage locations where the first (AWS)
put fails, `create_backup` propagates the exception: the second (local)
location is never attempted and no list of Backups is returned — the claim
expects the remaining location to be processed and the returned list to hold
its Backup. -/
theorem c2_counterexample :
    createBackupLoop (fun l => l.storageType == .LOCAL)
        (fun _ => "ezbak-20240102T030405.tgz") (some "tmp-archive.tgz")
        [⟨"bucket", .AWS, []⟩, ⟨"/dst2", .LOCAL, []⟩] =
      (.error "put failed",
        [.putAws (some "tmp-archive.tgz") "ezbak-20240102T030405.tgz"]) := by
  rfl

/-- C2 (amended): the per-location publish loop of `create_backup` has no
try/except.  When every put succeeds the returned list holds exactly the
created Backups, one per local/AWS location; when the put for a location L
fails, the raised error propagates — locations after L are not attempted
(the trace stops at L's put) and no list is returned. -/
theorem c2_put_failure_aborts (putOk : StorageLocation → Bool)
    (genName : StorageLocation → String) (tmp : Option String) :
    (∀ locs, (∀ l ∈ locs, putOk l = true) →
      createBackupLoop putOk genName tmp locs =
        (.ok (locs.flatMap (createdOf genName)),
          locs.flatMap (putEventOf tmp genName))) ∧
    (∀ pre loc post, (∀ l ∈ pre, putOk l = true) → putOk loc = false →
      loc.storageType ≠ .ALL →
      createBackupLoop putOk genName tmp (pre ++ loc :: post) =
        (.error "put failed",
          pre.flatMap (putEventOf tmp genName) ++ putEventOf tmp genName loc)) := by
  constructor
  · intro locs
    induction locs with
    | nil => intro _; rfl
    | cons l rest ih =>
      intro h
      have hl : putOk l = true := h l (List.mem_cons_self l rest)
      have hr := ih fun x hx => h x (List.mem_cons_of_mem l hx)
      cases hst : l.storageType with
      | ALL => simp [createBackupLoop, hst, hr, putEventOf, createdOf]
      | LOCAL => simp [createBackupLoop, hst, hl, hr, putEventOf, createdOf]
      | AWS => simp [createBackupLoop, hst, hl, hr, putEventOf, createdOf]
  · intro pre
    induction pre with
    | nil =>
      intro loc post _ hfail hall
      cases hst : loc.storageType with
      | ALL => exact absurd hst hall
      | LOCAL => simp [createBackupLoop, hst, hfail, putEventOf]
      | AWS => simp [createBackupLoop, hst, hfail, putEventOf]
    | cons p pre' ih =>
      intro loc post h hfail hall
      have hp : putOk p = true := h p (List.mem_cons_self p pre')
      have ih' := ih loc post (fun x hx => h x (List.mem_cons_of_mem p hx)) hfail hall
      cases hst : p.storageType with
      | ALL => simp [createBackupLoop, hst, ih', putEventOf]
      | LOCAL => simp [createBackupLoop, hst, hp, ih', putEventOf]
      | AWS => simp [createBackupLoop, hst, hp, ih', putEventOf]

/-- Witness for C2's amended theorem: a failing AWS put as the first of two
locations yields the propagated error, with only the AWS put attempted. -/
theorem c2_put_failure_aborts_witness :
    createBackupLoop (fun _ => false) (fun _ => "n.tgz") (some "t.tgz")
        [⟨"bucket", .AWS, []⟩, ⟨"/dst", .LOCAL, []⟩] =
      (.error "put failed", [.putAws (some "t.tgz") "n.tgz"]) :=
  (c2_put_failure_aborts (fun _ => false) (fun _ => "n.tgz") (some "t.tgz")).2
    [] ⟨"bucket", .AWS, []⟩ [⟨"/dst", .LOCAL, []⟩] (by simp) rfl (by decide)

/-- C9: `delete_objects` returns success without issuing any wire call on an
empty key list, and raises `ValueError` before any wire call on more than
1000 keys. -/
theorem c9_batch_delete (r : S3Responses) (bucketPath : String)
    (keys : List String) :
    (keys = [] → deleteObjects r bucketPath keys = (.ok true, [])) ∧
    (1000 < keys.length →
      deleteObjects r bucketPath keys =
        (.error "S3: Cannot delete more than 1000 objects at once", [])) := by
  constructor
  · rintro rfl; rfl
  · intro h
    have hne : keys.isEmpty = false := by
      cases keys with
      | nil => simp at h
      | cons a as => rfl
    simp [deleteObjects, hne, h]

/-- Witness for C9 at the empty batch and at a 1001-key batch. -/
theorem c9_batch_delete_witness :
    deleteObjects ⟨fun _ _ => .ok, fun _ => .found, fun _ => .ok,
        fun _ => .response [] []⟩ "" [] = (.ok true, []) ∧
    deleteObjects ⟨fun _ _ => .ok, fun _ => .found, fun _ => .ok,
        fun _ => .response [] []⟩ "" (List.replicate 1001 "k") =
      (.error "S3: Cannot delete more than 1000 objects at once", []) :=
  ⟨(c9_batch_delete _ "" []).1 rfl,
   (c9_batch_delete _ "" (List.replicate 1001 "k")).2
     (by rw [List.length_replicate]; omega)⟩

/-- C7: when the object copy succeeds but the verify read-back reports the
new key absent (404), `rename_file` raises `FailedCopyVerification` and no
delete call is issued; and in every execution, a source delete only ever
happens after the copy and the verify read-back. -/
theorem c7_rename_verify_before_delete :
    (∀ (r : S3Responses) (bp cur new : String),
      r.copyRes (buildFullKey bp cur) (buildFullKey bp new) = .ok →
      r.headRes (buildFullKey bp (buildFullKey bp new)) = .notFound404 →
      (renameFile r bp cur new).1 = .error "FailedCopyVerification" ∧
      ∀ k, S3Event.deleteObject k ∉ (renameFile r bp cur new).2) ∧
    (∀ (r : S3Responses) (bp cur new k : String),
      S3Event.deleteObject k ∈ (renameFile r bp cur new).2 →
      (renameFile r bp cur new).2 =
        [.copyObject (buildFullKey bp cur) (buildFullKey bp new),
         .headObject (buildFullKey bp (buildFullKey bp new)),
         .deleteObject (buildFullKey bp cur)]) := by
  constructor
  · intro r bp cur new hcopy hhead
    refine ⟨?_, ?_⟩ <;> simp [renameFile, fileExists, hcopy, hhead]
  · intro r bp cur new k h
    rcases hc : r.copyRes (buildFullKey bp cur) (buildFullKey bp new) with _ | e
    · rcases hh : r.headRes (buildFullKey bp (buildFullKey bp new)) with _ | _ | e
      · rcases hd : r.deleteRes (buildFullKey bp cur) with _ | e <;>
          simp [renameFile, fileExists, hc, hh, hd]
      · simp only [renameFile, fileExists, hc, hh] at h
        simp at h
      · simp only [renameFile, fileExists, hc, hh] at h
        simp at h
    · simp only [renameFile, hc] at h
      simp at h

/-- Witness for C7: a backend whose copy succeeds and whose head always
reports 404 makes the rename fail with `FailedCopyVerification`. -/
theorem c7_rename_verify_before_delete_witness :
    (renameFile ⟨fun _ _ => .ok, fun _ => .notFound404, fun _ => .ok,
        fun _ => .response [] []⟩ "" "a.tgz" "b.tgz").1 =
      .error "FailedCopyVerification" :=
  (c7_rename_verify_before_delete.1
    ⟨fun _ _ => .ok, fun _ => .notFound404, fun _ => .ok, fun _ => .response [] []⟩
    "" "a.tgz" "b.tgz" rfl rfl).1

/-- C10: with `clean_before_restore` set and a valid destination,
`restore_backup` empties the destination BEFORE it checks whether any backup
exists; with an empty inventory it has therefore already cleaned the
destination when it returns `False`. -/
theorem c10_clean_before_latest_check (dest : RestoreDest)
    (settingsClean restoreOk : Bool) (h1 : dest.exists' = true)
    (h2 : dest.isDir = true) :
    restoreBackup dest true settingsClean [] restoreOk =
      (false, [.cleanDest, .queryLatest]) := by
  simp [restoreBackup, h1, h2, getLatestBackup]

/-- Witness for C10 at a concrete existing directory destination. -/
theorem c10_clean_before_latest_check_witness :
    restoreBackup ⟨true, true⟩ true false [] false =
      (false, [.cleanDest, .queryLatest]) :=
  c10_clean_before_latest_check ⟨true, true⟩ false false rfl rfl

/-- Under the count-based policy the victim-selection loop treats each
storage location independently. -/
theorem pruneSelect_count_based (n : Nat) (tp : BackupType → Nat)
    (grouping : List Backup → List (BackupType × List Backup)) :
    ∀ (locs : List StorageLocation) (acc : List Backup),
      pruneSelect ⟨.COUNT_BASED, n, tp⟩ grouping locs acc =
        acc ++ locs.flatMap fun l => countBasedVictims l.backups n := by
  intro locs
  induction locs with
  | nil => intro acc; simp [pruneSelect]
  | cons l rest ih =>
    intro acc
    simp [pruneSelect, getRetention, ih, List.append_assoc]

/-- C6: under `CountBased(n)` the selection in `prune_backups` acts on each
storage location independently, and on one location's ascending backup list
the victims are exactly the backups other than the `n` most recent: the
reversed head of length `length - n`.  At most `n` survivors remain, and
every victim's timestamp is at most every survivor's. -/
theorem c6_count_based_selection (n : Nat) (tp : BackupType → Nat)
    (grouping : List Backup → List (BackupType × List Backup))
    (bs : List Backup)
    (hsort : bs.Pairwise fun a b => zonedTs a ≤ zonedTs b) :
    (∀ locs acc, pruneSelect ⟨.COUNT_BASED, n, tp⟩ grouping locs acc =
      acc ++ locs.flatMap fun l => countBasedVictims l.backups n) ∧
    countBasedVictims bs n = (bs.take (bs.length - n)).reverse ∧
    bs.length - (countBasedVictims bs n).length ≤ n ∧
    (∀ v ∈ countBasedVictims bs n, ∀ s ∈ bs.drop (bs.length - n),
      zonedTs v ≤ zonedTs s) := by
  have h2 : countBasedVictims bs n = (bs.take (bs.length - n)).reverse := by
    unfold countBasedVictims
    split_ifs with h
    · exact List.drop_reverse ..
    · have hz : bs.length - n = 0 := by omega
      simp [hz]
  refine ⟨pruneSelect_count_based n tp grouping, h2, ?_, ?_⟩
  · rw [h2]
    simp only [List.length_reverse, List.length_take]
    omega
  · intro v hv s hs
    rw [h2, List.mem_reverse] at hv
    have hsplit := hsort
    rw [← List.take_append_drop (bs.length - n) bs] at hsplit
    exact (List.pairwise_append.mp hsplit).2.2 v hv s hs

/-- Witness for C6 at the spec's literal scenario (timestamps 01..05,
`max_backups = 3`): the selected victims are exactly the backups with
timestamps 01 and 02. -/
theorem c6_count_based_selection_witness :
    countBasedVictims exampleBackups01to05 3 =
      (exampleBackups01to05.take (exampleBackups01to05.length - 3)).reverse ∧
    (exampleBackups01to05.take (exampleBackups01to05.length - 3)).reverse =
      [⟨.AWS, "foo-20240101T000002.tgz"⟩, ⟨.AWS, "foo-20240101T000001.tgz"⟩] :=
  ⟨(c6_count_based_selection 3 (fun _ => 0) (fun _ => []) exampleBackups01to05
      (by decide)).2.1,
   by decide⟩

/-- A target name carried by no record of a pending-rename list has count
zero among the list's targets. -/
theorem count_newName_eq_zero (l : List FileForRename) (n : String)
    (h : ∀ f ∈ l, f.newName ≠ n) :
    (l.map (·.newName)).count n = 0 := by
  rw [List.count_eq_zero]
  intro hmem
  rcases List.mem_map.mp hmem with ⟨f, hf, hfn⟩
  exact h f hf hfn

/-- Invariant of the collision-resolution pass: provided the drawn uids
produce names that clash neither with any pending target name nor with each
other, every record already processed that is due for a rename holds a
target name that is unique in the whole evolving list — and the final list
keeps that uniqueness. -/
theorem resolveRenames_unique_counts (uidf : Nat → String) (N : Nat)
    (names : List String)
    (H1 : ∀ k < N, ∀ n ∈ names, collisionName n (uidf k) ∉ names)
    (H2 : ∀ k < N, ∀ k' < N, ∀ n ∈ names, ∀ n' ∈ names, k ≠ k' →
      collisionName n (uidf k) ≠ collisionName n' (uidf k')) :
    ∀ (todo : List FileForRename) (k : Nat) (done : List FileForRename),
      k + todo.length = N →
      (∀ f ∈ todo, f.newName ∈ names) →
      (∀ f ∈ done, f.newName ∈ names ∨
        ∃ j n, j < k ∧ n ∈ names ∧ f.newName = collisionName n (uidf j)) →
      (∀ f ∈ done, f.doRename = true →
        ((done ++ todo).map (·.newName)).count f.newName = 1) →
      ∀ f ∈ resolveRenames uidf k done todo, f.doRename = true →
        ((resolveRenames uidf k done todo).map (·.newName)).count f.newName = 1 := by
  intro todo
  induction todo with
  | nil =>
    intro k done _ _ _ huniq f hf hdr
    simp only [resolveRenames] at hf ⊢
    simpa using huniq f hf hdr
  | cons g rest ih =>
    intro k done hN htodo hdone huniq f hf hdr
    have hkN : k < N := by
      simp only [List.length_cons] at hN
      omega
    have hgnames : g.newName ∈ names := htodo g (List.mem_cons_self g rest)
    have htodo' : ∀ x ∈ rest, x.newName ∈ names :=
      fun x hx => htodo x (List.mem_cons_of_mem g hx)
    by_cases hcond :
        (g.doRename &&
          decide (1 < ((done ++ g :: rest).map (·.newName)).count g.newName)) = true
    · -- collision branch: g's target gets a fresh uid suffix
      rw [resolveRenames, if_pos hcond] at hf ⊢
      have hfreshDone :
          ∀ d ∈ done, d.newName ≠ collisionName g.newName (uidf k) := by
        intro d hd hne
        rcases hdone d hd with h | ⟨j, m, hj, hm, he⟩
        · rw [hne] at h
          exact H1 k hkN g.newName hgnames h
        · rw [he] at hne
          exact H2 j (Nat.lt_trans hj hkN) k hkN m hm g.newName hgnames
            (Nat.ne_of_lt hj) hne
      have hfreshRest :
          ∀ d ∈ rest, d.newName ≠ collisionName g.newName (uidf k) := by
        intro d hd hne
        have := htodo' d hd
        rw [hne] at this
        exact H1 k hkN g.newName hgnames this
      refine ih (k + 1) (done ++ [{ g with newName := collisionName g.newName (uidf k) }])
        ?_ htodo' ?_ ?_ f hf hdr
      · simp only [List.length_cons] at hN
        omega
      · intro x hx
        rcases List.mem_append.mp hx with hm | hm
        · rcases hdone x hm with h | ⟨j, m, hj, hmm, he⟩
          · exact Or.inl h
          · exact Or.inr ⟨j, m, Nat.lt_succ_of_lt hj, hmm, he⟩
        · have hx' : x = { g with newName := collisionName g.newName (uidf k) } := by
            simpa using hm
          subst hx'
          exact Or.inr ⟨k, g.newName, Nat.lt_succ_self k, hgnames, rfl⟩
      · intro x hx hxdr
        rcases List.mem_append.mp hx with hm | hm
        · -- an already-processed record keeps its unique count
          have hold := huniq x hm hxdr
          rw [List.map_append, List.count_append] at hold
          have hxpos : 1 ≤ (done.map (·.newName)).count x.newName :=
            List.count_pos_iff.mpr (List.mem_map_of_mem _ hm)
          have hrest0 : ((g :: rest).map (·.newName)).count x.newName = 0 := by omega
          have hxdone1 : (done.map (·.newName)).count x.newName = 1 := by omega
          have hgx : g.newName ≠ x.newName := by
            intro he
            rw [List.map_cons, List.count_cons, he] at hrest0
            simp at hrest0
          have hrest0' : (rest.map (·.newName)).count x.newName = 0 := by
            rw [List.map_cons, List.count_cons] at hrest0
            omega
          have hgx' : collisionName g.newName (uidf k) ≠ x.newName :=
            fun he => hfreshDone x hm he.symm
          rw [List.map_append, List.count_append, List.map_append, List.count_append]
          rw [hxdone1, hrest0']
          have hsing : List.count x.newName [collisionName g.newName (uidf k)] = 0 :=
            List.count_eq_zero.mpr (by simp [Ne.symm hgx'])
          simp [hsing]
        · -- the freshly suffixed record is unique everywhere
          have hx' : x = { g with newName := collisionName g.newName (uidf k) } := by
            simpa using hm
          subst hx'
          rw [List.map_append, List.count_append, List.map_append, List.count_append]
          rw [count_newName_eq_zero done _ hfreshDone,
            count_newName_eq_zero rest _ hfreshRest]
          simp
    · -- no-collision branch: g keeps its target
      rw [resolveRenames, if_neg hcond] at hf ⊢
      refine ih (k + 1) (done ++ [g]) ?_ htodo' ?_ ?_ f hf hdr
      · simp only [List.length_cons] at hN
        omega
      · intro x hx
        rcases List.mem_append.mp hx with hm | hm
        · rcases hdone x hm with h | ⟨j, m, hj, hmm, he⟩
          · exact Or.inl h
          · exact Or.inr ⟨j, m, Nat.lt_succ_of_lt hj, hmm, he⟩
        · have hx' : x = g := by simpa using hm
          subst hx'
          exact Or.inl hgnames
      · intro x hx hxdr
        have hassoc : (done ++ [g]) ++ rest = done ++ g :: rest := by
          simp
        rcases List.mem_append.mp hx with hm | hm
        · rw [hassoc]
          exact huniq x hm hxdr
        · have hx' : x = g := by simpa using hm
          subst hx'
          rw [hassoc]
          have hle :
              ¬ 1 < ((done ++ x :: rest).map (·.newName)).count x.newName := by
            intro hlt
            apply hcond
            rw [hxdr]
            simp only [Bool.true_and, decide_eq_true_eq]
            exact hlt
          have hpos : 1 ≤ ((done ++ x :: rest).map (·.newName)).count x.newName :=
            List.count_pos_iff.mpr
              (List.mem_map_of_mem _ (List.mem_append.mpr (Or.inr (List.mem_cons_self x rest))))
          omega

/-- C8 (amended): in the collision-resolution pass of `rename_backups`, a
pending target that is not unique at its processing step receives a fresh
uid suffix — the LAST colliding target, seeing all earlier ones already
re-suffixed, keeps the plain name — and, provided the drawn uids clash
neither with any pending target name nor with each other, the target names
the pass actually produces for renamed backups are pairwise distinct (each
has count 1 in the final list). -/
theorem c8_rename_collision_amended (uidf : Nat → String)
    (grouping : List (BackupType × List Backup))
    (H1 : ∀ k < (renameWithLabels grouping).length,
      ∀ n ∈ (renameWithLabels grouping).map (·.newName),
        collisionName n (uidf k) ∉ (renameWithLabels grouping).map (·.newName))
    (H2 : ∀ k < (renameWithLabels grouping).length,
      ∀ k' < (renameWithLabels grouping).length,
      ∀ n ∈ (renameWithLabels grouping).map (·.newName),
      ∀ n' ∈ (renameWithLabels grouping).map (·.newName), k ≠ k' →
        collisionName n (uidf k) ≠ collisionName n' (uidf k')) :
    ∀ f ∈ renameBackupsLabeled uidf grouping, f.doRename = true →
      ((renameBackupsLabeled uidf grouping).map (·.newName)).count f.newName = 1 := by
  intro f hf hdr
  exact resolveRenames_unique_counts uidf (renameWithLabels grouping).length
    ((renameWithLabels grouping).map (·.newName)) H1 H2
    (renameWithLabels grouping) 0 [] (by simp)
    (fun x hx => List.mem_map_of_mem _ hx) (by simp) (by simp) f hf hdr

/-- Witness for C8's amended theorem at the spec's collision scenario: the
first of the two colliding `daily` targets is produced with a fresh uid
suffix and is unique among the produced names. -/
theorem c8_rename_collision_amended_witness :
    ((renameBackupsLabeled (fun k => "u" ++ toString k)
        [(BackupType.DAILY,
          [⟨.AWS, "foo-20240101T120000-aaa.tgz"⟩,
           ⟨.AWS, "foo-20240101T120000-bbb.tgz"⟩])]).map (·.newName)).count
      "foo-20240101T120000-daily-u0.tgz" = 1 :=
  c8_rename_collision_amended (fun k => "u" ++ toString k)
    [(BackupType.DAILY,
      [⟨.AWS, "foo-20240101T120000-aaa.tgz"⟩,
       ⟨.AWS, "foo-20240101T120000-bbb.tgz"⟩])]
    (by decide) (by decide)
    ⟨⟨.AWS, "foo-20240101T120000-aaa.tgz"⟩,
      "foo-20240101T120000-daily-u0.tgz", true⟩
    (by decide) rfl

/-- C8 (counterexample): two backups with identical timestamp seconds, both
classified `daily`, target the same new name; the code re-suffixes only the
FIRST target — the recount after the first mutation sees the second target
as unique again, so the second rename is executed with the plain name and no
uid, where the claim requires all colliding targets to be suffixed. -/
theorem c8_counterexample :
    (renameBackupsLabeled (fun k => "u" ++ toString k)
        [(BackupType.DAILY,
          [⟨.AWS, "foo-20240101T120000-aaa.tgz"⟩,
           ⟨.AWS, "foo-20240101T120000-bbb.tgz"⟩])]).map (·.newName) =
      ["foo-20240101T120000-daily-u0.tgz", "foo-20240101T120000-daily.tgz"] := by
  decide

end EzBak
